import Mathlib

/-!
Verification development for the `memosel` memoization library
(`src/packages/memosel/lib/main.ts`).

The shallow embedding below translates the runtime core — the selector
produced by `createSelector` (main.ts lines 177–240), the keyed dispatch
of `getSelector`/`build` (lines 242–299) and the cache-removing (reap)
callback (lines 196–198) — into pure Lean functions.  JavaScript
reference identity on field values, parameters and results is modelled
by equality on the corresponding Lean type (each Lean value stands for
one object reference); machine timestamps (`Date.now()`) are `Nat`;
`Number.MAX_VALUE` is modelled by a fixed constant larger than any
timestamp; the JS array holding the result cache is a Lean `List` with
`unshift`/`pop`/`find` translated to `cons`/`dropLast`/`findIdx?`.
-/

namespace Memosel

/-- Models `Number.MAX_VALUE`: a constant larger than any timestamp the
program ever computes (`Date.now()` values and `now + ttl` sums). -/
def NumberMaxValue : Nat := 2 ^ 1024

/-- Result of one cached computation.  In the source, `entry.result`
holds either the field-map object itself (no result selector configured,
main.ts line 229) or the value returned by the result selector
(line 228); the two cases are kept apart so that the embedding records
which one was stored. -/
inductive Res (V R : Type) where
  | map (m : List (String × V))
  | trans (r : R)
deriving DecidableEq, Repr

/-- One result-cache entry, translating the `ResultCacheEntry` type of
main.ts (lines 105–110): `result` and `selected` start out absent
(`undefined`), `param` is the primary input the entry was created for,
`expiry` is an absolute timestamp.  A stored `selected` field-map is a
JS object and hence always truthy, so `!entry.selected` in the source is
exactly `selected = none` here. -/
structure ResultCacheEntry (P V R : Type) where
  param : P
  expiry : Nat
  selected : Option (List (String × V)) := none
  result : Option (Res V R) := none
deriving DecidableEq, Repr

/-- Configuration captured by the closure of `createSelector`
(main.ts lines 165–177): the named input selectors (`selectorEntries`,
obtained from `Object.entries(selectorMap)` at build time), the
map-returning input selectors (`selectorList`), the optional result
selector, the `ttl` (absent unless `.ttl()` was called, mirroring the
uninitialised `let ttl: number`), the cache `size` (default 1; kept as
`Int` because the source never validates it) and the equality policy
(default strict equality).  The key tuple spread `...keys` is modelled
by passing the whole tuple as one value of type `K`. -/
structure SelectorConfig (P K V R : Type) where
  selectorEntries : List (String × (P → K → V))
  selectorList : List (P → K → Option (List (String × V)))
  resultSelector : Option (List (String × V) → K → R)
  ttl : Option Nat
  size : Int
  equalCompareFn : P → P → Bool

/-- JS truthiness of the captured `ttl` variable: `undefined` and `0`
are falsy, any other number is truthy (main.ts lines 194–195). -/
def ttlTruthy : Option Nat → Bool
  | none => false
  | some t => t != 0

/-- JS truthiness of the captured `size` variable in
`if (size && resultCache.length > size)` (main.ts line 188). -/
def sizeTruthy (size : Int) : Bool := size != 0

/-- Property read `m[k]` on the field-map object: the value stored under
`k`, or `undefined` (`none`) when absent. -/
def getField {V : Type} (m : List (String × V)) (k : String) : Option V :=
  (m.find? (fun p => p.1 == k)).map (·.2)

/-- Property write `m[k] = v` on the field-map object: overwrite in
place when the key exists (keeping its position, as JS objects keep the
original insertion position), append otherwise. -/
def setField {V : Type} (m : List (String × V)) (k : String) (v : V) :
    List (String × V) :=
  if m.any (fun p => p.1 == k) then
    m.map (fun p => if p.1 == k then (k, v) else p)
  else m ++ [(k, v)]

/-- The per-field change test of main.ts lines 205–210 and 216–222:
`!entry?.selected || nextSelected[key] !== entry?.selected[key]`, where
`nextSelected[key]` is the value `v` just assigned. -/
def fieldChanged {V : Type} [DecidableEq V]
    (oldSelected : Option (List (String × V))) (k : String) (v : V) : Bool :=
  match oldSelected with
  | none => true
  | some old => decide (getField old k ≠ some v)

/-- The sequence of `(name, value)` assignments the recompute pass
performs into `nextSelected`, in program order: first one assignment per
named entry of `selectorEntries` (main.ts lines 202–211), then, for each
map-returning selector of `selectorList`, one assignment per entry of
the returned map — a falsy return contributes nothing
(`if (!nextMap) return`, line 214). -/
def evalSeq {P K V R : Type} (cfg : SelectorConfig P K V R)
    (param : P) (keys : K) : List (String × V) :=
  cfg.selectorEntries.map (fun e => (e.1, e.2 param keys))
    ++ (cfg.selectorList.map (fun f => (f param keys).getD [])).flatten

/-- Folds the assignment sequence into the accumulating `nextSelected`
object together with the `hasChange` flag, exactly as the two `forEach`
loops of main.ts lines 200–224 do: each assignment writes the field and
ors the per-field change test into the flag. -/
def applyFields {V : Type} [DecidableEq V]
    (oldSelected : Option (List (String × V)))
    (fields : List (String × V)) (acc : List (String × V) × Bool) :
    List (String × V) × Bool :=
  fields.foldl
    (fun acc kv => (setField acc.1 kv.1 kv.2,
      acc.2 || fieldChanged oldSelected kv.1 kv.2)) acc

/-- The expiry timestamp the recompute pass stores
(main.ts line 194): `ttl ? now + ttl : Number.MAX_VALUE`. -/
def newExpiry (ttl : Option Nat) (now : Nat) : Nat :=
  if ttlTruthy ttl then now + ttl.getD 0 else NumberMaxValue

/-- The expiry timestamp the recompute pass registers with the
cache-removing queue: one registration, carrying the stored expiry,
exactly when `ttl` is truthy (main.ts lines 195–199). -/
def newEnqueue (ttl : Option Nat) (now : Nat) : Option Nat :=
  if ttlTruthy ttl then some (newExpiry ttl now) else none

/-- The revalidation/recompute step of main.ts lines 193–231, applied to
the entry the lookup produced.  Returns the updated entry together with
the expiry timestamp enqueued to the cache-removing queue (when a truthy
`ttl` is configured, lines 195–199), whether the result selector was
invoked, and whether the recompute pass ran at all.  The guard is the
source's `!entry.selected || entry.expiry < now`; inside the pass the
expiry is refreshed first, then every input selector is evaluated, and
only when some field changed are `selected` and `result` replaced. -/
def refresh {P K V R : Type} [DecidableEq V] (cfg : SelectorConfig P K V R)
    (keys : K) (now : Nat) (param : P) (entry : ResultCacheEntry P V R) :
    ResultCacheEntry P V R × Option Nat × Bool × Bool :=
  if entry.selected.isNone || decide (entry.expiry < now) then
    let sc := applyFields entry.selected (evalSeq cfg param keys) ([], false)
    if sc.2 then
      match cfg.resultSelector with
      | some f =>
          ({ entry with
              expiry := newExpiry cfg.ttl now
              selected := some sc.1
              result := some (.trans (f sc.1 keys)) },
           newEnqueue cfg.ttl now, true, true)
      | none =>
          ({ entry with
              expiry := newExpiry cfg.ttl now
              selected := some sc.1
              result := some (.map sc.1) },
           newEnqueue cfg.ttl now, false, true)
    else
      ({ entry with expiry := newExpiry cfg.ttl now },
       newEnqueue cfg.ttl now, false, true)
  else (entry, none, false, false)

/-- The miss branch of main.ts lines 184–191: construct a fresh entry
`{ param, expiry: 0 }`, `unshift` it to the front, and when `size` is
truthy and the length now exceeds `size`, `pop` the entry at the back. -/
def insertNew {P V R : Type} (size : Int) (param : P)
    (cache : List (ResultCacheEntry P V R)) : List (ResultCacheEntry P V R) :=
  let cache1 := ({ param := param, expiry := 0 } : ResultCacheEntry P V R) :: cache
  if sizeTruthy size && decide ((cache1.length : Int) > size) then
    cache1.dropLast
  else cache1

/-- Observable state of one cache instance.  `resultCache` is the
`resultCache` array of main.ts line 178.  The remaining fields are
observational instrumentation not present as data in the source:
`transformRuns` counts invocations of the result selector (the spec's
`runCount`), `inputRuns` counts invocations of input selectors, and
`enqueued` records the expiry timestamps registered with the
cache-removing queue (each registration's callback clears the whole
`resultCache`; see `reapCallback`). -/
structure CacheState (P V R : Type) where
  resultCache : List (ResultCacheEntry P V R) := []
  transformRuns : Nat := 0
  inputRuns : Nat := 0
  enqueued : List Nat := []
deriving DecidableEq, Repr

/-- One invocation of the selector returned by `createSelector`
(main.ts lines 181–233) at time `now` with primary input `param`:
look for an entry whose stored `param` the equality policy accepts
(line 183); on a miss insert a fresh entry at the front with the
capacity cap (lines 184–191); run the revalidation/recompute step on
the entry (lines 193–231); return `entry.result` (line 232).  The
in-place mutation of the found entry is rendered by writing the
refreshed entry back at its index; on a miss the new entry sits at
index 0 — unless the capacity cap already dropped it (possible only for
a negative `size`), in which case `List.set` on the out-of-range index
leaves the cache unchanged, matching the source where the popped entry
object is mutated outside the array while `entry.result` is still
returned. -/
def invoke {P K V R : Type} [DecidableEq V] (cfg : SelectorConfig P K V R)
    (keys : K) (now : Nat) (param : P) (st : CacheState P V R) :
    Option (Res V R) × CacheState P V R :=
  match st.resultCache.findIdx? (fun x => cfg.equalCompareFn x.param param) with
  | some i =>
      let entry := (st.resultCache[i]?).getD { param := param, expiry := 0 }
      let rf := refresh cfg keys now param entry
      (rf.1.result,
        { resultCache := st.resultCache.set i rf.1,
          transformRuns := st.transformRuns + (if rf.2.2.1 then 1 else 0),
          inputRuns := st.inputRuns + (if rf.2.2.2 then
            cfg.selectorEntries.length + cfg.selectorList.length else 0),
          enqueued := st.enqueued ++ rf.2.1.toList })
  | none =>
      let entry : ResultCacheEntry P V R := { param := param, expiry := 0 }
      let cache2 := insertNew cfg.size param st.resultCache
      let rf := refresh cfg keys now param entry
      (rf.1.result,
        { resultCache := cache2.set 0 rf.1,
          transformRuns := st.transformRuns + (if rf.2.2.1 then 1 else 0),
          inputRuns := st.inputRuns + (if rf.2.2.2 then
            cfg.selectorEntries.length + cfg.selectorList.length else 0),
          enqueued := st.enqueued ++ rf.2.1.toList })

/-- Runs a sequence of invocations `(now, param)` from a starting state,
keeping only the state. -/
def runCalls {P K V R : Type} [DecidableEq V] (cfg : SelectorConfig P K V R)
    (keys : K) (calls : List (Nat × P)) (st : CacheState P V R) :
    CacheState P V R :=
  calls.foldl (fun s c => (invoke cfg keys c.1 c.2 s).2) st

/-- The cache-removing callback registered for a TTL-bearing entry
(main.ts lines 196–198): `() => { resultCache.length = 0 }` discards
every entry of the result cache, whatever its current contents. -/
def reapCallback {P V R : Type} (_cache : List (ResultCacheEntry P V R)) :
    List (ResultCacheEntry P V R) := []

/-- Configuration of one cache instance in which every caller-supplied
function may throw, returning `Except E` instead of a plain value: used
to study how an exception raised by an input selector, the result
selector or the equality policy propagates through the invocation of
main.ts lines 181–233 (the core itself has no `try`/`catch`). -/
structure SelectorConfigT (E P K V R : Type) where
  selectorEntries : List (String × (P → K → Except E V))
  selectorList : List (P → K → Except E (Option (List (String × V))))
  resultSelector : Option (List (String × V) → K → Except E R)
  ttl : Option Nat
  size : Int
  equalCompareFn : P → P → Except E Bool

/-- `Array.prototype.find` of main.ts line 183 with a throwing equality
policy: the scan stops at the first exception, which propagates. -/
def findIdxT {E P V R : Type} (eq : P → P → Except E Bool) (param : P) :
    List (ResultCacheEntry P V R) → Nat → Except E (Option Nat)
  | [], _ => .ok none
  | x :: xs, i => do
      let b ← eq x.param param
      if b then pure (some i) else findIdxT eq param xs (i + 1)

/-- Evaluation of the assignment sequence of the recompute pass
(main.ts lines 202–224) with throwing input selectors, in program
order; the first exception aborts the pass.  Until the pass finishes,
all assignments go into the local `nextSelected` object, so an
exception here discards them without touching the entry. -/
def evalSeqT {E P K V R : Type} (cfg : SelectorConfigT E P K V R)
    (param : P) (keys : K) : Except E (List (String × V)) := do
  let named ← cfg.selectorEntries.mapM
    (fun e => do
      let v ← e.2 param keys
      pure (e.1, v))
  let maps ← cfg.selectorList.mapM
    (fun f => do
      let m ← f param keys
      pure (m.getD []))
  pure (named ++ maps.flatten)

/-- One invocation of the selector of main.ts lines 181–233 when the
caller-supplied functions may throw.  Mirrors `invoke` but returns the
exception (`Except.error`) together with the result cache exactly as
the in-place mutations have left it at the moment of the throw: the
source updates `entry.expiry` (line 194) before running the input
selectors, and assigns `entry.selected` (line 226) before invoking the
result selector (line 228), so a throwing result selector leaves the
new field-map in place while `entry.result` keeps its previous value. -/
def invokeT {E P K V R : Type} [DecidableEq V]
    (cfg : SelectorConfigT E P K V R) (keys : K) (now : Nat) (param : P)
    (cache : List (ResultCacheEntry P V R)) :
    Except E (Option (Res V R)) × List (ResultCacheEntry P V R) :=
  match findIdxT cfg.equalCompareFn param cache 0 with
  | .error e => (.error e, cache)
  | .ok found =>
      let cache1 := match found with
        | some _ => cache
        | none => insertNew cfg.size param cache
      let i := match found with
        | some j => j
        | none => 0
      let entry := match found with
        | some j => (cache[j]?).getD { param := param, expiry := 0 }
        | none => ({ param := param, expiry := 0 } : ResultCacheEntry P V R)
      if entry.selected.isNone || decide (entry.expiry < now) then
        let entry1 := { entry with expiry := newExpiry cfg.ttl now }
        let cache2 := cache1.set i entry1
        match evalSeqT cfg param keys with
        | .error e => (.error e, cache2)
        | .ok fields =>
            let sc := applyFields entry.selected fields ([], false)
            if sc.2 then
              let entry2 := { entry1 with selected := some sc.1 }
              let cache3 := cache2.set i entry2
              match cfg.resultSelector with
              | some f =>
                  match f sc.1 keys with
                  | .error e => (.error e, cache3)
                  | .ok r =>
                      let entry3 := { entry2 with result := some (.trans r) }
                      (.ok entry3.result, cache2.set i entry3)
              | none =>
                  let entry3 := { entry2 with result := some (.map sc.1) }
                  (.ok entry3.result, cache2.set i entry3)
            else (.ok entry1.result, cache2)
      else (.ok entry.result, cache)

/-- Identity of a cache instance, for the keyed-dispatch model:
`default` is the `defaultSelector` created once at build time
(main.ts line 241); `keyed ks` is the selector stored at path `ks` of
the `selectorCache` map-of-maps (lines 244–255) — the tree walk reaches
the same terminal node, hence the same instance, exactly when the key
tuples are element-wise identical. -/
inductive SelectorInstance (A : Type) where
  | default
  | keyed (path : List A)
deriving DecidableEq, Repr

/-- Value returned by one call of the outer callable that `build()`
produces for a keyed builder: either a cache-instance selector, or the
raw `defaultKeySelector` helper function `(...args) => args`
(main.ts line 131), which the source returns verbatim when the outer
callable receives zero arguments (line 296). -/
inductive OuterResult (A : Type) where
  | selector (s : SelectorInstance A)
  | defaultKeySelectorFn
deriving DecidableEq, Repr

/-- The `getSelector` routing of main.ts lines 242–256: an empty key
list yields the default instance; a non-empty list walks/extends the
key tree and yields the instance at that path. -/
def getSelector {A : Type} (keys : List A) : SelectorInstance A :=
  if keys.length = 0 then .default else .keyed keys

/-- The outer callable returned by `build()` for a keyed builder
(main.ts lines 294–298): with at least one argument it routes through
the key selector and `getSelector`; with zero arguments it returns
`defaultKeySelector` itself. -/
def outerCall {A : Type} (keySelector : List A → List A) (args : List A) :
    OuterResult A :=
  if args.length ≠ 0 then .selector (getSelector (keySelector args))
  else .defaultKeySelectorFn

/-- The configuration state a builder holds when `build()` runs
(main.ts lines 290–299): `build` reads only the selector map (via
`Object.entries`), the result selector argument and whether a key
selector was installed; the stored `size` and `ttl` are not examined by
`build` at all. -/
structure BuilderConfig where
  size : Int := 1
  ttl : Option Nat := none
  hasKeySelector : Bool := false

/-- Shape of the value `build()` returns: the unkeyed default selector,
or the keyed outer callable. -/
inductive BuildOutput where
  | unkeyedSelector
  | keyedFactory
deriving DecidableEq, Repr

/-- The `build` method of main.ts lines 290–299, wrapped in `Except` to
record whether a configuration error is raised: the source body
contains no validation and no `throw` statement (nor does any code path
it calls), so the model returns `.ok` on every input. -/
def build (b : BuilderConfig) : Except String BuildOutput :=
  .ok (if b.hasKeySelector then .keyedFactory else .unkeyedSelector)

/-- Concrete two-slot configuration: one named input selector returning
the primary input itself, capacity 2, strict equality, no transform, no
TTL. -/
def pairCfg : SelectorConfig Nat Unit Nat Nat where
  selectorEntries := [("v", fun p _ => p)]
  selectorList := []
  resultSelector := none
  ttl := none
  size := 2
  equalCompareFn := fun a b => a == b

/-- Concrete configuration with a TTL of 2 time units and capacity 1. -/
def ttlCfg : SelectorConfig Nat Unit Nat Nat where
  selectorEntries := [("v", fun p _ => p)]
  selectorList := []
  resultSelector := none
  ttl := some 2
  size := 1
  equalCompareFn := fun a b => a == b

/-- Concrete configuration with the malformed capacity `-1`, which the
builder's `size` method stores without any validation. -/
def negCfg : SelectorConfig Nat Unit Nat Nat where
  selectorEntries := [("v", fun p _ => p)]
  selectorList := []
  resultSelector := none
  ttl := none
  size := -1
  equalCompareFn := fun a b => a == b

/-- Concrete throwing configuration: one input selector, an
always-matching equality policy, a TTL of 5 and a result selector that
throws exactly when the field `v` holds `2` (and otherwise returns ten
times that field). -/
def throwCfg : SelectorConfigT Unit Nat Unit Nat Nat where
  selectorEntries := [("v", fun p _ => .ok p)]
  selectorList := []
  resultSelector := some (fun m _ =>
    if getField m "v" == some 2 then .error ()
    else .ok ((getField m "v").getD 0 * 10))
  ttl := some 5
  size := 1
  equalCompareFn := fun _ _ => .ok true

/-- Concrete capacity-1 configuration whose result selector doubles the
single selected field. -/
def doubleCfg : SelectorConfig Nat Unit Nat Nat where
  selectorEntries := [("v", fun p _ => p)]
  selectorList := []
  resultSelector := some (fun m _ => (getField m "v").getD 0 * 2)
  ttl := none
  size := 1
  equalCompareFn := fun a b => a == b

/-- Concrete configuration with capacity 0 (eviction disabled). -/
def unboundedCfg : SelectorConfig Nat Unit Nat Nat where
  selectorEntries := [("v", fun p _ => p)]
  selectorList := []
  resultSelector := none
  ttl := none
  size := 0
  equalCompareFn := fun a b => a == b

/-- Runs a sequence of invocation times with one fixed primary input,
collecting every returned result together with the final state. -/
def invokeSeq {P K V R : Type} [DecidableEq V] (cfg : SelectorConfig P K V R)
    (keys : K) (param : P) (times : List Nat) (st : CacheState P V R) :
    List (Option (Res V R)) × CacheState P V R :=
  times.foldl (fun acc t =>
    let r := invoke cfg keys t param acc.2
    (acc.1 ++ [r.1], r.2)) ([], st)

/-- A successful `findIdx?` at start index `n` yields an absolute index
`n + k` with `k` inside the list, whose element satisfies the
predicate. -/
theorem findIdx_q_spec {α : Type _} (p : α → Bool) :
    ∀ (l : List α) (n j : Nat), List.findIdx? p l n = some j →
      ∃ k : Nat, j = n + k ∧ k < l.length ∧ ∃ a, l[k]? = some a ∧ p a = true := by
  intro l
  induction l with
  | nil => intro n j h; simp [List.findIdx?_nil] at h
  | cons x xs ih =>
      intro n j h
      rw [List.findIdx?_cons] at h
      by_cases hx : p x = true
      · refine ⟨0, ?_, by simp, x, by simp, hx⟩
        simp [hx] at h
        omega
      · simp [hx] at h
        obtain ⟨a, ha, haj⟩ := h
        obtain ⟨k, hk, hlen, b, hb, hpb⟩ := ih 0 a ha
        refine ⟨k + 1, by omega, by simp; omega, b, by simpa using hb, hpb⟩

/-- Writing an element back at the index it was read from leaves the
list unchanged. -/
theorem set_self {α : Type _} (l : List α) (i : Nat) (a : α)
    (h : l[i]? = some a) : l.set i a = l := by
  apply List.ext_getElem
  · simp
  · intro n h1 h2
    rw [List.getElem_set]
    split
    · next he =>
        subst he
        have := List.getElem?_eq_getElem h2
        rw [this] at h
        exact (Option.some_inj.mp h).symm
    · rfl

end Memosel

set_option maxRecDepth 8000 in
/-- C1.  Counterexample to "both a lookup hit and an insertion place the
active slot at the front": with capacity 2, after inserting inputs 10
and 20 the slot order is `[20, 10]`; a third call with input 10 is a
lookup hit on the second slot (it returns that slot's stored result),
yet it leaves the whole cache state — in particular the slot order —
unchanged, so the most recently accessed slot is not the first
element. -/
theorem c1_counterexample :
    (Memosel.runCalls Memosel.pairCfg () [(1, 10), (2, 20)]
        ⟨[], 0, 0, []⟩).resultCache.map (·.param) = [20, 10]
    ∧ (Memosel.invoke Memosel.pairCfg () 3 10
        (Memosel.runCalls Memosel.pairCfg () [(1, 10), (2, 20)] ⟨[], 0, 0, []⟩)).1
      = some (.map [("v", 10)])
    ∧ (Memosel.invoke Memosel.pairCfg () 3 10
        (Memosel.runCalls Memosel.pairCfg () [(1, 10), (2, 20)] ⟨[], 0, 0, []⟩)).2
      = Memosel.runCalls Memosel.pairCfg () [(1, 10), (2, 20)] ⟨[], 0, 0, []⟩ := by
  decide

/-- C2.  Evaluation of the code at the failing input: a capacity-1
selector with one input field, a TTL of 5, an always-matching equality
policy and a result selector that throws when the field holds 2.  The
first call (input 1, t = 0) computes normally.  The second call
(input 2, t = 10) finds the expired slot, recomputes the field-map,
stores it into the slot (main.ts line 226) and only then invokes the
result selector, which throws (line 228): the exception propagates, the
previous `result` is kept, but the stored field-map has been replaced —
the slot is partially updated, contradicting the claim.  A third call
(t = 11) then silently serves the stale result computed from the old
field values as if it were current. -/
theorem c2_theorem :
    (Memosel.invokeT Memosel.throwCfg () 0 1 []).1
      = .ok (some (.trans 10))
    ∧ (Memosel.invokeT Memosel.throwCfg () 0 1 []).2.map (·.selected)
      = [some [("v", 1)]]
    ∧ (Memosel.invokeT Memosel.throwCfg () 10 2
        (Memosel.invokeT Memosel.throwCfg () 0 1 []).2).1 = .error ()
    ∧ (Memosel.invokeT Memosel.throwCfg () 10 2
        (Memosel.invokeT Memosel.throwCfg () 0 1 []).2).2.map (·.result)
      = [some (.trans 10)]
    ∧ (Memosel.invokeT Memosel.throwCfg () 10 2
        (Memosel.invokeT Memosel.throwCfg () 0 1 []).2).2.map (·.selected)
      = [some [("v", 2)]]
    ∧ (Memosel.invokeT Memosel.throwCfg () 11 2
        (Memosel.invokeT Memosel.throwCfg () 10 2
          (Memosel.invokeT Memosel.throwCfg () 0 1 []).2).2).1
      = .ok (some (.trans 10)) := by
  exact ⟨rfl, rfl, rfl, rfl, rfl, rfl⟩

set_option maxRecDepth 8000 in
/-- C3.  Counterexample to "build() raises a configuration error
synchronously for malformed configuration": building with the negative
capacity -1 raises nothing (`build` succeeds — its body, main.ts
lines 290–299, contains no validation or throw), and the first
invocation of the built selector raises nothing either: it computes and
returns a result while retaining no slot (the fresh slot is immediately
popped because `resultCache.length > size` always holds for a negative
`size`). -/
theorem c3_counterexample :
    Memosel.build { size := -1 } = .ok .unkeyedSelector
    ∧ (Memosel.invoke Memosel.negCfg () 0 5 ⟨[], 0, 0, []⟩).1
      = some (.map [("v", 5)])
    ∧ (Memosel.invoke Memosel.negCfg () 0 5 ⟨[], 0, 0, []⟩).2.resultCache
      = [] := by
  exact ⟨rfl, rfl, rfl⟩

/-- C4.  Evaluation of the code at the failing input: for a keyed
factory, a key function returning the empty tuple does resolve to the
default cache instance (second conjunct of the source's ternary routes
through `getSelector`, which returns `defaultSelector` for an empty key
list, main.ts line 243) — but invoking the outer callable with zero
arguments does not: main.ts line 296 returns the raw
`defaultKeySelector` helper `(...args) => args` (line 131) instead of
`defaultSelector`, so the caller receives the key-extraction helper,
not a cache-instance selector. -/
theorem c4_theorem :
    Memosel.outerCall (A := Nat) (fun _ => []) [7]
      = .selector .default
    ∧ Memosel.outerCall (A := Nat) (fun args => args) []
      = .defaultKeySelectorFn
    ∧ Memosel.outerCall (A := Nat) (fun args => args) []
      ≠ .selector .default
    ∧ Memosel.build { hasKeySelector := true } = .ok .keyedFactory := by
  refine ⟨rfl, rfl, ?_, rfl⟩
  decide

/-- C9.  Counterexample to "any expiry timestamp not in the future is
treated as invalid": with a TTL of 2, a call at t = 3 stores a slot
with expiry 5; a second call with the same input at evaluation time
t = 5 — when the expiry timestamp is not in the future — returns the
cached result and leaves the state (slots, input-selector run count)
completely unchanged: the guard of main.ts line 193 is the strict
`entry.expiry < now`, so the recompute pass is skipped. -/
theorem c9_counterexample :
    (Memosel.invoke Memosel.ttlCfg () 3 7 ⟨[], 0, 0, []⟩).2.resultCache.map
        (·.expiry) = [5]
    ∧ Memosel.invoke Memosel.ttlCfg () 5 7
        (Memosel.invoke Memosel.ttlCfg () 3 7 ⟨[], 0, 0, []⟩).2
      = (some (.map [("v", 7)]),
         (Memosel.invoke Memosel.ttlCfg () 3 7 ⟨[], 0, 0, []⟩).2) := by
  decide

/-- C7.  The reap callback registered for a TTL-bearing slot
(main.ts lines 196–198) sets `resultCache.length = 0`: whatever the
cache holds when the callback fires — the original slots, a cleared
cache, or a repopulated one — it discards every slot of the whole
bounded result cache (not only the expired one), and on an
already-empty cache it is a harmless no-op (idempotent, never an
error). -/
theorem c7_theorem :
    (∀ (P V R : Type) (cache : List (Memosel.ResultCacheEntry P V R)),
      Memosel.reapCallback cache = [])
    ∧ Memosel.reapCallback ([] : List (Memosel.ResultCacheEntry Nat Nat Nat))
      = []
    ∧ (∀ (P V R : Type) (cache : List (Memosel.ResultCacheEntry P V R)),
      Memosel.reapCallback (Memosel.reapCallback cache)
        = Memosel.reapCallback cache) :=
  ⟨fun _ _ _ _ => rfl, rfl, fun _ _ _ _ => rfl⟩

namespace Memosel

/-- The recompute step never changes which primary input a slot belongs
to. -/
theorem refresh_param {P K V R : Type} [DecidableEq V]
    (cfg : SelectorConfig P K V R) (keys : K) (now : Nat) (param : P)
    (entry : ResultCacheEntry P V R) :
    (refresh cfg keys now param entry).1.param = entry.param := by
  unfold refresh
  split
  · split <;> (dsimp only; first | rfl | (split <;> rfl))
  · rfl

/-- When the validity guard of main.ts line 193 rejects the recompute
(field-map present and expiry not strictly past), the step returns the
entry untouched, enqueues nothing and runs nothing. -/
theorem refresh_skip {P K V R : Type} [DecidableEq V]
    (cfg : SelectorConfig P K V R) (keys : K) (now : Nat) (param : P)
    (entry : ResultCacheEntry P V R)
    (hsel : entry.selected ≠ none) (hexp : ¬ entry.expiry < now) :
    refresh cfg keys now param entry = (entry, none, false, false) := by
  have h1 : entry.selected.isNone = false := by
    cases hv : entry.selected
    · exact absurd hv hsel
    · rfl
  have h2 : decide (entry.expiry < now) = false := by
    simpa using hexp
  unfold refresh
  rw [h1, h2]
  rfl

/-- When the validity guard of main.ts line 193 accepts the recompute
(missing field-map, or expiry strictly past), the pass runs. -/
theorem refresh_pass_flag {P K V R : Type} [DecidableEq V]
    (cfg : SelectorConfig P K V R) (keys : K) (now : Nat) (param : P)
    (entry : ResultCacheEntry P V R)
    (h : entry.selected = none ∨ entry.expiry < now) :
    (refresh cfg keys now param entry).2.2.2 = true := by
  have hg : (entry.selected.isNone || decide (entry.expiry < now)) = true := by
    rcases h with h | h
    · simp [h]
    · simp [h]
  unfold refresh
  rw [hg]
  simp only [if_true]
  try dsimp only
  split
  · split <;> rfl
  · rfl

/-- A hit on a valid slot returns the stored result and leaves the
whole cache state unchanged. -/
theorem invoke_hit_of_valid {P K V R : Type} [DecidableEq V]
    (cfg : SelectorConfig P K V R) (keys : K) (now : Nat) (param : P)
    (st : CacheState P V R) (i : Nat) (entry : ResultCacheEntry P V R)
    (hfind : st.resultCache.findIdx?
      (fun x => cfg.equalCompareFn x.param param) = some i)
    (hget : st.resultCache[i]? = some entry)
    (hsel : entry.selected ≠ none) (hexp : ¬ entry.expiry < now) :
    invoke cfg keys now param st = (entry.result, st) := by
  unfold invoke
  rw [hfind]
  simp only [hget, Option.getD_some,
    refresh_skip cfg keys now param entry hsel hexp]
  rw [set_self st.resultCache i entry hget]
  simp

end Memosel

namespace Memosel

/-- For a non-negative capacity, the miss branch always leaves the
freshly constructed slot — `{ param, expiry: 0 }`, no field-map, no
result — at the front of the cache: the `pop` can only remove the slot
at the back, which is the new slot itself only when the capacity is
negative. -/
theorem insertNew_head {P V R : Type} (size : Int) (param : P)
    (cache : List (ResultCacheEntry P V R)) (h : 0 ≤ size) :
    ∃ rest, insertNew size param cache
      = ({ param := param, expiry := 0 } : ResultCacheEntry P V R) :: rest := by
  unfold insertNew
  dsimp only
  split
  · next hc =>
      rw [Bool.and_eq_true] at hc
      obtain ⟨hs, hg⟩ := hc
      have hs' : size ≠ 0 := by simpa [sizeTruthy] using hs
      have hg' : ((cache.length + 1 : Nat) : Int) > size := by
        simpa using of_decide_eq_true hg
      have hne : cache ≠ [] := by
        intro hnil
        subst hnil
        simp at hg'
        omega
      rw [List.dropLast_cons_of_ne_nil hne]
      exact ⟨cache.dropLast, rfl⟩
  · exact ⟨cache, rfl⟩

end Memosel

/-- C1 (amended).  Only an insertion places the active slot at the
front of the slot sequence: on a miss (with non-negative capacity) the
newly created slot for the current input ends up first, while a lookup
hit leaves the order of the slot sequence completely unchanged — the
hit slot is not moved to the front, so the first slot is the most
recently created one, not necessarily the most recently accessed
one. -/
theorem c1_theorem {P K V R : Type} [DecidableEq V]
    (cfg : Memosel.SelectorConfig P K V R) (keys : K) (now : Nat) (param : P)
    (st : Memosel.CacheState P V R) :
    (st.resultCache.findIdx? (fun x => cfg.equalCompareFn x.param param)
        = none →
      0 ≤ cfg.size →
      (Memosel.invoke cfg keys now param st).2.resultCache.head?.map (·.param)
        = some param)
    ∧ (∀ i, st.resultCache.findIdx? (fun x => cfg.equalCompareFn x.param param)
        = some i →
      (Memosel.invoke cfg keys now param st).2.resultCache.map (·.param)
        = st.resultCache.map (·.param)) := by
  constructor
  · intro hfind hsize
    unfold Memosel.invoke
    rw [hfind]
    obtain ⟨rest, hrest⟩ :=
      Memosel.insertNew_head cfg.size param st.resultCache hsize
    simp only [hrest, List.set_cons_zero, List.head?_cons, Option.map_some]
    simp [Memosel.refresh_param]
  · intro i hfind
    obtain ⟨k, hk, hlen, entry, hget, hp⟩ :=
      Memosel.findIdx_q_spec _ st.resultCache 0 i hfind
    have hik : i = k := by omega
    subst hik
    unfold Memosel.invoke
    rw [hfind]
    simp only [hget, Option.getD_some]
    rw [List.map_set, Memosel.refresh_param]
    apply Memosel.set_self
    rw [List.getElem?_map, hget]
    rfl

set_option maxRecDepth 8000 in
/-- C1 witness: with capacity 2, a miss on the empty cache puts input
10's slot first; the later lookup hit on input 10 (behind input 20's
slot) leaves the slot order unchanged. -/
theorem c1_witness :
    ((Memosel.invoke Memosel.pairCfg () 1 10 ⟨[], 0, 0, []⟩).2.resultCache.head?.map
        (·.param)) = some 10
    ∧ (Memosel.invoke Memosel.pairCfg () 3 10
        (Memosel.runCalls Memosel.pairCfg () [(1, 10), (2, 20)]
          ⟨[], 0, 0, []⟩)).2.resultCache.map (·.param)
      = (Memosel.runCalls Memosel.pairCfg () [(1, 10), (2, 20)]
          ⟨[], 0, 0, []⟩).resultCache.map (·.param) :=
  ⟨(c1_theorem Memosel.pairCfg () 1 10 ⟨[], 0, 0, []⟩).1 (by decide) (by decide),
   (c1_theorem Memosel.pairCfg () 3 10
      (Memosel.runCalls Memosel.pairCfg () [(1, 10), (2, 20)] ⟨[], 0, 0, []⟩)).2
     1 (by decide)⟩

/-- C9 (amended).  On a lookup hit, the slot is treated as valid — the
stored result is returned and the state is left completely untouched,
with no recompute pass — exactly when it has a computed field-map and
its expiry timestamp is not strictly before the evaluation time (so a
slot whose expiry equals `now` is still valid, the guard of main.ts
line 193 being the strict `entry.expiry < now`); a slot with no
field-map or with expiry strictly in the past triggers the recompute
pass, which evaluates every registered input selector. -/
theorem c9_theorem {P K V R : Type} [DecidableEq V]
    (cfg : Memosel.SelectorConfig P K V R) (keys : K) (now : Nat) (param : P)
    (st : Memosel.CacheState P V R) (i : Nat)
    (entry : Memosel.ResultCacheEntry P V R)
    (hfind : st.resultCache.findIdx?
      (fun x => cfg.equalCompareFn x.param param) = some i)
    (hget : st.resultCache[i]? = some entry) :
    (¬ (entry.selected = none ∨ entry.expiry < now) →
      Memosel.invoke cfg keys now param st = (entry.result, st))
    ∧ ((entry.selected = none ∨ entry.expiry < now) →
      (Memosel.invoke cfg keys now param st).2.inputRuns
        = st.inputRuns
          + (cfg.selectorEntries.length + cfg.selectorList.length)) := by
  constructor
  · intro h
    push_neg at h
    exact Memosel.invoke_hit_of_valid cfg keys now param st i entry
      hfind hget h.1 (not_lt.mpr h.2)
  · intro h
    unfold Memosel.invoke
    rw [hfind]
    simp only [hget, Option.getD_some]
    rw [Memosel.refresh_pass_flag cfg keys now param entry h]
    simp

set_option maxRecDepth 8000 in
/-- C9 witness: after the TTL-2 call at t = 3 (slot expiry 5), the hit
at t = 4 — expiry in the future, field-map present — returns the
stored result without touching the state, and a hit at t = 6 — expiry
strictly past — reruns the single input selector. -/
theorem c9_witness :
    (Memosel.invoke Memosel.ttlCfg () 4 7
        (Memosel.invoke Memosel.ttlCfg () 3 7 ⟨[], 0, 0, []⟩).2
      = (some (.map [("v", 7)]),
         (Memosel.invoke Memosel.ttlCfg () 3 7 ⟨[], 0, 0, []⟩).2))
    ∧ (Memosel.invoke Memosel.ttlCfg () 6 7
        (Memosel.invoke Memosel.ttlCfg () 3 7 ⟨[], 0, 0, []⟩).2).2.inputRuns
      = (Memosel.invoke Memosel.ttlCfg () 3 7 ⟨[], 0, 0, []⟩).2.inputRuns
        + (Memosel.ttlCfg.selectorEntries.length
          + Memosel.ttlCfg.selectorList.length) :=
  ⟨(c9_theorem Memosel.ttlCfg () 4 7
      (Memosel.invoke Memosel.ttlCfg () 3 7 ⟨[], 0, 0, []⟩).2 0
      ⟨7, 5, some [("v", 7)], some (.map [("v", 7)])⟩
      (by decide) (by decide)).1 (by decide),
   (c9_theorem Memosel.ttlCfg () 6 7
      (Memosel.invoke Memosel.ttlCfg () 3 7 ⟨[], 0, 0, []⟩).2 0
      ⟨7, 5, some [("v", 7)], some (.map [("v", 7)])⟩
      (by decide) (by decide)).2 (by decide)⟩

namespace Memosel

/-- The `hasChange` flag accumulated by the recompute pass is exactly
"some assignment's freshly computed value differs from the previously
stored field (or no field-map existed)", independent of the
accumulating map. -/
theorem applyFields_flag {V : Type} [DecidableEq V]
    (old : Option (List (String × V))) :
    ∀ (fs : List (String × V)) (acc : List (String × V) × Bool),
      (applyFields old fs acc).2
        = (acc.2 || fs.any (fun kv => fieldChanged old kv.1 kv.2)) := by
  intro fs
  induction fs with
  | nil => intro acc; simp [applyFields]
  | cons kv rest ih =>
      intro acc
      show (applyFields old rest
        (setField acc.1 kv.1 kv.2, acc.2 || fieldChanged old kv.1 kv.2)).2 = _
      rw [ih]
      simp [Bool.or_assoc]

/-- When the recompute guard accepts, the pass leaves the entry's
result and field-map as the `hasChange` branch dictates. -/
theorem refresh_pass_change {P K V R : Type} [DecidableEq V]
    (cfg : SelectorConfig P K V R) (keys : K) (now : Nat) (param : P)
    (entry : ResultCacheEntry P V R)
    (hinvalid : entry.selected = none ∨ entry.expiry < now)
    (hchange : (applyFields entry.selected (evalSeq cfg param keys)
      ([], false)).2 = true) :
    (refresh cfg keys now param entry).1.result
      = some (match cfg.resultSelector with
        | some f => .trans (f (applyFields entry.selected
            (evalSeq cfg param keys) ([], false)).1 keys)
        | none => .map (applyFields entry.selected
            (evalSeq cfg param keys) ([], false)).1)
    ∧ (refresh cfg keys now param entry).1.selected
      = some (applyFields entry.selected (evalSeq cfg param keys)
          ([], false)).1
    ∧ (refresh cfg keys now param entry).1.expiry = newExpiry cfg.ttl now
    ∧ (refresh cfg keys now param entry).2.1 = newEnqueue cfg.ttl now
    ∧ (refresh cfg keys now param entry).2.2.1 = cfg.resultSelector.isSome := by
  have hg : (entry.selected.isNone || decide (entry.expiry < now)) = true := by
    rcases hinvalid with h | h
    · simp [h]
    · simp [h]
  unfold refresh
  rw [hg]
  simp only [if_true]
  rw [hchange]
  simp only [if_true]
  cases cfg.resultSelector <;> exact ⟨rfl, rfl, rfl, rfl, rfl⟩

/-- When the recompute guard accepts but no field changed, the pass
refreshes only the expiry: field-map and result keep their previous
values. -/
theorem refresh_pass_nochange {P K V R : Type} [DecidableEq V]
    (cfg : SelectorConfig P K V R) (keys : K) (now : Nat) (param : P)
    (entry : ResultCacheEntry P V R)
    (hinvalid : entry.selected = none ∨ entry.expiry < now)
    (hchange : (applyFields entry.selected (evalSeq cfg param keys)
      ([], false)).2 = false) :
    (refresh cfg keys now param entry).1
      = { entry with expiry := newExpiry cfg.ttl now }
    ∧ (refresh cfg keys now param entry).2.1 = newEnqueue cfg.ttl now
    ∧ (refresh cfg keys now param entry).2.2.1 = false
    ∧ (refresh cfg keys now param entry).2.2.2 = true := by
  have hg : (entry.selected.isNone || decide (entry.expiry < now)) = true := by
    rcases hinvalid with h | h
    · simp [h]
    · simp [h]
  unfold refresh
  rw [hg]
  simp only [if_true]
  rw [hchange]
  simp

end Memosel

/-- C6.  Recompute-pass semantics: the pass's `hasChange` flag is true
exactly when some assignment of the evaluation sequence produced a
value differing by identity from the previously stored field (or no
field-map existed yet); when it is true, the new result is the result
selector's return value applied to the fresh field-map (the field-map
itself when no result selector is configured) and the result selector
is invoked exactly when one is configured; when it is false, the slot's
previous `result` and field-map are returned unchanged (identity
preserved) with no result-selector invocation — even though the pass
itself ran and evaluated every input selector. -/
theorem c6_theorem {P K V R : Type} [DecidableEq V]
    (cfg : Memosel.SelectorConfig P K V R) (keys : K) (now : Nat) (param : P)
    (entry : Memosel.ResultCacheEntry P V R)
    (hinvalid : entry.selected = none ∨ entry.expiry < now)
    (sc : List (String × V) × Bool)
    (hsc : sc = Memosel.applyFields entry.selected
      (Memosel.evalSeq cfg param keys) ([], false)) :
    (sc.2 = (Memosel.evalSeq cfg param keys).any
      (fun kv => Memosel.fieldChanged entry.selected kv.1 kv.2))
    ∧ (sc.2 = true →
        (Memosel.refresh cfg keys now param entry).1.result
          = some (match cfg.resultSelector with
            | some f => .trans (f sc.1 keys)
            | none => .map sc.1)
        ∧ (Memosel.refresh cfg keys now param entry).2.2.1
          = cfg.resultSelector.isSome)
    ∧ (sc.2 = false →
        (Memosel.refresh cfg keys now param entry).1.result = entry.result
        ∧ (Memosel.refresh cfg keys now param entry).1.selected
          = entry.selected
        ∧ (Memosel.refresh cfg keys now param entry).2.2.1 = false
        ∧ (Memosel.refresh cfg keys now param entry).2.2.2 = true) := by
  subst hsc
  refine ⟨?_, ?_, ?_⟩
  · rw [Memosel.applyFields_flag]
    simp
  · intro hch
    obtain ⟨h1, _, _, _, h5⟩ :=
      Memosel.refresh_pass_change cfg keys now param entry hinvalid hch
    exact ⟨h1, h5⟩
  · intro hch
    obtain ⟨h1, _, h3, h4⟩ :=
      Memosel.refresh_pass_nochange cfg keys now param entry hinvalid hch
    refine ⟨?_, ?_, h3, h4⟩ <;> rw [h1]

/-- C6 witness: on the expired slot holding field-map `v = 1` and
result 2, a recompute with input 3 changes field `v` and stores the
doubled result 6; a recompute with input 1 leaves every field
unchanged and returns the stored result 2 unchanged even though the
pass ran. -/
theorem c6_witness :
    (Memosel.refresh Memosel.doubleCfg () 5 3
        ⟨1, 0, some [("v", 1)], some (.trans 2)⟩).1.result
      = some (.trans 6)
    ∧ (Memosel.refresh Memosel.doubleCfg () 5 1
        ⟨1, 0, some [("v", 1)], some (.trans 2)⟩).1.result
      = some (.trans 2)
    ∧ (Memosel.refresh Memosel.doubleCfg () 5 1
        ⟨1, 0, some [("v", 1)], some (.trans 2)⟩).2.2.2 = true := by
  have hch := (c6_theorem Memosel.doubleCfg () 5 3
    ⟨1, 0, some [("v", 1)], some (.trans 2)⟩ (Or.inr (by decide)) _ rfl).2.1
    (by decide)
  have hnc := (c6_theorem Memosel.doubleCfg () 5 1
    ⟨1, 0, some [("v", 1)], some (.trans 2)⟩ (Or.inr (by decide)) _ rfl).2.2
    (by decide)
  exact ⟨hch.1.trans (by decide), hnc.1.trans (by decide), hnc.2.2.2⟩

/-- A falsy `ttl` (absent or zero) never registers anything with the
cache-removing queue. -/
theorem refresh_enq_falsy {P K V R : Type} [DecidableEq V]
    (cfg : Memosel.SelectorConfig P K V R) (keys : K) (now : Nat) (param : P)
    (entry : Memosel.ResultCacheEntry P V R)
    (h : Memosel.ttlTruthy cfg.ttl = false) :
    (Memosel.refresh cfg keys now param entry).2.1 = none := by
  unfold Memosel.refresh
  split
  · split <;> (try dsimp only) <;> split <;> simp [Memosel.newEnqueue, h]
  · rfl

/-- With a falsy `ttl`, an invocation leaves the enqueued-reaps record
unchanged. -/
theorem invoke_enq_falsy {P K V R : Type} [DecidableEq V]
    (cfg : Memosel.SelectorConfig P K V R) (keys : K) (now : Nat) (param : P)
    (st : Memosel.CacheState P V R)
    (h : Memosel.ttlTruthy cfg.ttl = false) :
    (Memosel.invoke cfg keys now param st).2.enqueued = st.enqueued := by
  cases hfind : st.resultCache.findIdx?
      (fun x => cfg.equalCompareFn x.param param) with
  | some i =>
      unfold Memosel.invoke
      rw [hfind]
      simp [refresh_enq_falsy cfg keys now param _ h]
  | none =>
      unfold Memosel.invoke
      rw [hfind]
      simp [refresh_enq_falsy cfg keys now param _ h]

/-- C10.  A configured TTL of 0 is falsy exactly like an absent TTL
(main.ts lines 194–195 test the `ttl` variable for truthiness): the
invocation behaves identically under `ttl = 0` and under no TTL at
all — on recompute the slot's expiry is set to the
`Number.MAX_VALUE` model constant (never expiring) and no reap entry
is ever enqueued with the cache-removing queue. -/
theorem c10_theorem {P K V R : Type} [DecidableEq V]
    (cfg : Memosel.SelectorConfig P K V R) (keys : K) (now : Nat) (param : P)
    (st : Memosel.CacheState P V R)
    (entry : Memosel.ResultCacheEntry P V R) :
    (Memosel.invoke { cfg with ttl := some 0 } keys now param st
      = Memosel.invoke { cfg with ttl := none } keys now param st)
    ∧ (Memosel.invoke { cfg with ttl := some 0 } keys now param st).2.enqueued
      = st.enqueued
    ∧ ((entry.selected = none ∨ entry.expiry < now) →
      (Memosel.refresh { cfg with ttl := some 0 } keys now param
        entry).1.expiry = Memosel.NumberMaxValue) := by
  refine ⟨rfl, invoke_enq_falsy _ keys now param st rfl, ?_⟩
  intro hinvalid
  rcases hch : (Memosel.applyFields entry.selected
      (Memosel.evalSeq { cfg with ttl := some 0 } param keys)
      ([], false)).2 with _ | _
  · rw [(Memosel.refresh_pass_nochange _ keys now param _ hinvalid hch).1]
    exact rfl
  · rw [(Memosel.refresh_pass_change _ keys now param _ hinvalid hch).2.2.1]
    exact rfl

/-- C10 witness: with the doubling configuration, TTL 0 and absent TTL
give identical invocations, nothing is enqueued, and the recomputed
fresh slot's expiry is the `Number.MAX_VALUE` model constant. -/
theorem c10_witness :
    (Memosel.invoke { Memosel.doubleCfg with ttl := some 0 } () 5 1
        ⟨[], 0, 0, []⟩
      = Memosel.invoke { Memosel.doubleCfg with ttl := none } () 5 1
        ⟨[], 0, 0, []⟩)
    ∧ (Memosel.invoke { Memosel.doubleCfg with ttl := some 0 } () 5 1
        ⟨[], 0, 0, []⟩).2.enqueued = []
    ∧ (Memosel.refresh { Memosel.doubleCfg with ttl := some 0 } () 5 1
        ⟨1, 0, none, none⟩).1.expiry = Memosel.NumberMaxValue :=
  have h := c10_theorem Memosel.doubleCfg () 5 1 ⟨[], 0, 0, []⟩
    ⟨1, 0, none, none⟩
  ⟨h.1, h.2.1, h.2.2 (Or.inl rfl)⟩

/-- C3 (amended).  `build()` performs no configuration validation at
all: for every builder state — malformed capacity included — it
returns successfully (its body, main.ts lines 290–299, contains no
check and no throw), and a selector built with a negative capacity
also raises nothing on first invocation: starting from the empty
cache, the invocation still computes and returns the recompute step's
result while retaining no slot (the fresh slot is popped again at
once, since the array length always exceeds a negative `size`). -/
theorem c3_theorem :
    (∀ b : Memosel.BuilderConfig, Memosel.build b
      = .ok (if b.hasKeySelector then .keyedFactory else .unkeyedSelector))
    ∧ (∀ {P K V R : Type} [DecidableEq V]
        (cfg : Memosel.SelectorConfig P K V R) (keys : K) (now : Nat)
        (param : P) (tr ir : Nat) (enq : List Nat),
      cfg.size < 0 →
      (Memosel.invoke cfg keys now param ⟨[], tr, ir, enq⟩).2.resultCache = []
      ∧ (Memosel.invoke cfg keys now param ⟨[], tr, ir, enq⟩).1
        = (Memosel.refresh cfg keys now param
            ⟨param, 0, none, none⟩).1.result) := by
  constructor
  · intro b
    rfl
  · intro P K V R inst cfg keys now param tr ir enq h
    have hcache : Memosel.insertNew cfg.size param
        ([] : List (Memosel.ResultCacheEntry P V R)) = [] := by
      unfold Memosel.insertNew
      dsimp only
      rw [if_pos]
      · rfl
      · rw [Bool.and_eq_true]
        refine ⟨?_, ?_⟩
        · simp [Memosel.sizeTruthy]
          omega
        · simp
          omega
    constructor
    · show (Memosel.invoke cfg keys now param ⟨[], tr, ir, enq⟩).2.resultCache
        = []
      unfold Memosel.invoke
      rw [show (Memosel.CacheState.resultCache
          (⟨[], tr, ir, enq⟩ : Memosel.CacheState P V R)).findIdx?
          (fun x => cfg.equalCompareFn x.param param) = none from rfl]
      dsimp only
      rw [hcache]
      rfl
    · show (Memosel.invoke cfg keys now param ⟨[], tr, ir, enq⟩).1 = _
      unfold Memosel.invoke
      rw [show (Memosel.CacheState.resultCache
          (⟨[], tr, ir, enq⟩ : Memosel.CacheState P V R)).findIdx?
          (fun x => cfg.equalCompareFn x.param param) = none from rfl]

/-- C3 witness: the builder state holding capacity -1 builds
successfully into the unkeyed selector, and the first invocation of
the negative-capacity configuration retains no slot while raising
nothing. -/
theorem c3_witness :
    Memosel.build ⟨-1, none, false⟩ = .ok .unkeyedSelector
    ∧ (Memosel.invoke Memosel.negCfg () 0 5 ⟨[], 0, 0, []⟩).2.resultCache
      = [] :=
  ⟨c3_theorem.1 ⟨-1, none, false⟩,
   (c3_theorem.2 Memosel.negCfg () 0 5 0 0 [] (by decide)).1⟩

namespace Memosel

/-- One invocation never lets a positive-capacity cache grow beyond its
capacity: a hit rewrites in place, and a miss that would overflow pops
the slot at the back. -/
theorem invoke_length_le {P K V R : Type} [DecidableEq V]
    (cfg : SelectorConfig P K V R) (keys : K) (now : Nat) (param : P)
    (st : CacheState P V R) (hpos : 0 < cfg.size)
    (hlen : (st.resultCache.length : Int) ≤ cfg.size) :
    (((invoke cfg keys now param st).2.resultCache.length : Int))
      ≤ cfg.size := by
  cases hfind : st.resultCache.findIdx?
      (fun x => cfg.equalCompareFn x.param param) with
  | some i =>
      unfold invoke
      rw [hfind]
      simpa using hlen
  | none =>
      unfold invoke
      rw [hfind]
      dsimp only
      rw [List.length_set]
      unfold insertNew
      dsimp only
      split
      · next hc =>
          rw [List.length_dropLast]
          simp
          omega
      · next hc =>
          have hst : sizeTruthy cfg.size = true := by
            simp [sizeTruthy]
            omega
          rw [hst, Bool.true_and] at hc
          have := of_decide_eq_false (Bool.not_eq_true _ ▸ hc)
          simp at this ⊢
          omega

/-- The capacity bound is preserved along any whole call sequence. -/
theorem runCalls_length_le {P K V R : Type} [DecidableEq V]
    (cfg : SelectorConfig P K V R) (keys : K) (hpos : 0 < cfg.size) :
    ∀ (calls : List (Nat × P)) (st : CacheState P V R),
      (st.resultCache.length : Int) ≤ cfg.size →
      (((runCalls cfg keys calls st).resultCache.length : Int)) ≤ cfg.size := by
  intro calls
  induction calls with
  | nil => intro st h; exact h
  | cons c rest ih =>
      intro st h
      exact ih _ (invoke_length_le cfg keys c.1 c.2 st hpos h)

end Memosel

/-- C5.  Capacity discipline of the bounded result cache
(main.ts lines 184–191): with positive capacity the slot-sequence
length never exceeds the capacity after any sequence of invocations
from the empty cache; when an insertion overflows a truthy capacity
the slot dropped is exactly the one at the back; with capacity 0 no
eviction ever occurs — a miss grows the sequence by one, a hit leaves
its length unchanged, so the sequence grows without bound as distinct
inputs arrive; and (for non-negative capacity) every newly created
slot is constructed as `{ param, expiry: 0 }` — no field-map, no
result — and pushed to the front. -/
theorem c5_theorem {P K V R : Type} [DecidableEq V]
    (cfg : Memosel.SelectorConfig P K V R) (keys : K) :
    (0 < cfg.size → ∀ (calls : List (Nat × P)) (tr ir : Nat) (enq : List Nat),
      (((Memosel.runCalls cfg keys calls ⟨[], tr, ir, enq⟩).resultCache.length
        : Int)) ≤ cfg.size)
    ∧ (∀ (now : Nat) (param : P) (st : Memosel.CacheState P V R),
        st.resultCache.findIdx? (fun x => cfg.equalCompareFn x.param param)
          = none →
        Memosel.sizeTruthy cfg.size = true →
        ((st.resultCache.length + 1 : Nat) : Int) > cfg.size →
        st.resultCache ≠ [] →
        ∃ e, (Memosel.invoke cfg keys now param st).2.resultCache
          = e :: st.resultCache.dropLast)
    ∧ (cfg.size = 0 → ∀ (now : Nat) (param : P)
        (st : Memosel.CacheState P V R),
        (st.resultCache.findIdx? (fun x => cfg.equalCompareFn x.param param)
            = none →
          (Memosel.invoke cfg keys now param st).2.resultCache.length
            = st.resultCache.length + 1)
        ∧ (∀ i, st.resultCache.findIdx?
            (fun x => cfg.equalCompareFn x.param param) = some i →
          (Memosel.invoke cfg keys now param st).2.resultCache.length
            = st.resultCache.length))
    ∧ (∀ (size : Int) (param : P)
        (cache : List (Memosel.ResultCacheEntry P V R)), 0 ≤ size →
        ∃ rest, Memosel.insertNew size param cache
          = ({ param := param, expiry := 0 } :
              Memosel.ResultCacheEntry P V R) :: rest) := by
  refine ⟨?_, ?_, ?_, ?_⟩
  · intro hpos calls tr ir enq
    exact Memosel.runCalls_length_le cfg keys hpos calls _ (by simp; omega)
  · intro now param st hfind hst hover hne
    unfold Memosel.invoke
    rw [hfind]
    dsimp only
    have hcond : (Memosel.sizeTruthy cfg.size && decide
        ((((({ param := param, expiry := 0 } :
          Memosel.ResultCacheEntry P V R) :: st.resultCache).length : Nat)
          : Int) > cfg.size)) = true := by
      rw [Bool.and_eq_true]
      exact ⟨hst, decide_eq_true (by simpa using hover)⟩
    have hins : Memosel.insertNew cfg.size param st.resultCache
        = ({ param := param, expiry := 0 } :
            Memosel.ResultCacheEntry P V R) :: st.resultCache.dropLast := by
      unfold Memosel.insertNew
      dsimp only
      rw [if_pos hcond]
      exact List.dropLast_cons_of_ne_nil hne
    rw [hins]
    exact ⟨_, by rw [List.set_cons_zero]⟩
  · intro h0 now param st
    constructor
    · intro hfind
      unfold Memosel.invoke
      rw [hfind]
      dsimp only
      rw [List.length_set]
      unfold Memosel.insertNew
      dsimp only
      rw [if_neg]
      · rfl
      · simp [Memosel.sizeTruthy, h0]
    · intro i hfind
      unfold Memosel.invoke
      rw [hfind]
      simp
  · intro size param cache h
    exact Memosel.insertNew_head size param cache h

set_option maxRecDepth 8000 in
/-- C5 witness: three distinct inputs through the capacity-2
configuration leave at most 2 slots; the overflowing third distinct
input drops the back slot; with capacity 0 a miss grows the cache and
a hit does not; and a fresh insertion carries expiry 0 at the front. -/
theorem c5_witness :
    (((Memosel.runCalls Memosel.pairCfg () [(1, 10), (2, 20), (3, 30)]
        ⟨[], 0, 0, []⟩).resultCache.length : Int)) ≤ Memosel.pairCfg.size
    ∧ (∃ e, (Memosel.invoke Memosel.pairCfg () 3 30
        (Memosel.runCalls Memosel.pairCfg () [(1, 10), (2, 20)]
          ⟨[], 0, 0, []⟩)).2.resultCache
      = e :: (Memosel.runCalls Memosel.pairCfg () [(1, 10), (2, 20)]
          ⟨[], 0, 0, []⟩).resultCache.dropLast)
    ∧ (Memosel.invoke Memosel.unboundedCfg () 4 40
        (Memosel.runCalls Memosel.unboundedCfg () [(1, 10), (2, 20), (3, 30)]
          ⟨[], 0, 0, []⟩)).2.resultCache.length
      = (Memosel.runCalls Memosel.unboundedCfg () [(1, 10), (2, 20), (3, 30)]
          ⟨[], 0, 0, []⟩).resultCache.length + 1
    ∧ (Memosel.invoke Memosel.unboundedCfg () 4 20
        (Memosel.runCalls Memosel.unboundedCfg () [(1, 10), (2, 20), (3, 30)]
          ⟨[], 0, 0, []⟩)).2.resultCache.length
      = (Memosel.runCalls Memosel.unboundedCfg () [(1, 10), (2, 20), (3, 30)]
          ⟨[], 0, 0, []⟩).resultCache.length
    ∧ (∃ rest, Memosel.insertNew 2 99
        ([] : List (Memosel.ResultCacheEntry Nat Nat Nat))
      = ({ param := 99, expiry := 0 } :
          Memosel.ResultCacheEntry Nat Nat Nat) :: rest) :=
  ⟨(c5_theorem Memosel.pairCfg ()).1 (by decide) [(1, 10), (2, 20), (3, 30)]
      0 0 [],
   (c5_theorem Memosel.pairCfg ()).2.1 3 30 _ (by decide) (by decide)
      (by decide) (by decide),
   ((c5_theorem Memosel.unboundedCfg ()).2.2.1 rfl 4 40 _).1 (by decide),
   ((c5_theorem Memosel.unboundedCfg ()).2.2.1 rfl 4 20 _).2 1 (by decide),
   (c5_theorem Memosel.pairCfg ()).2.2.2 2 99 [] (by decide)⟩

namespace Memosel

/-- A single-slot state whose slot matches the input and is valid is a
fixed point of invocation: the stored result is returned and the state
is returned unchanged. -/
theorem invoke_fixed {P K V R : Type} [DecidableEq V]
    (cfg : SelectorConfig P K V R) (keys : K) (param : P) (t : Nat)
    (e : ResultCacheEntry P V R) (tr ir : Nat) (enq : List Nat)
    (hp : cfg.equalCompareFn e.param param = true)
    (hsel : e.selected ≠ none) (hexp : ¬ e.expiry < t) :
    invoke cfg keys t param ⟨[e], tr, ir, enq⟩
      = (e.result, ⟨[e], tr, ir, enq⟩) := by
  apply invoke_hit_of_valid cfg keys t param ⟨[e], tr, ir, enq⟩ 0 e _ rfl
    hsel hexp
  show List.findIdx? (fun x => cfg.equalCompareFn x.param param) [e] = some 0
  rw [List.findIdx?_cons, hp]
  rfl

/-- Folding invocations over a state that every invocation maps to
itself yields that state together with one copy of the fixed result
per call. -/
theorem invokeSeq_const {P K V R : Type} [DecidableEq V]
    (cfg : SelectorConfig P K V R) (keys : K) (param : P)
    (s1 : CacheState P V R) (r0 : Option (Res V R)) :
    ∀ (times : List Nat) (acc : List (Option (Res V R))),
      (∀ t ∈ times, invoke cfg keys t param s1 = (r0, s1)) →
      times.foldl (fun acc t =>
        let r := invoke cfg keys t param acc.2
        (acc.1 ++ [r.1], r.2)) (acc, s1)
        = (acc ++ List.replicate times.length r0, s1) := by
  intro times
  induction times with
  | nil => intro acc h; simp
  | cons t rest ih =>
      intro acc h
      rw [List.foldl_cons]
      have h1 : invoke cfg keys t param s1 = (r0, s1) := h t (by simp)
      show rest.foldl _
        (acc ++ [(invoke cfg keys t param s1).1],
          (invoke cfg keys t param s1).2) = _
      rw [h1]
      show rest.foldl _ (acc ++ [r0], s1) = _
      rw [ih (acc ++ [r0]) (fun u hu => h u (by simp [hu]))]
      simp [List.replicate_succ]

end Memosel

/-- C8.  Idempotence: for a capacity-1, no-TTL configuration with at
least one named input selector, a configured result selector and an
equality policy accepting the repeated input, the first call computes
once (result selector run count 1) and every subsequent call with the
identical input — at any later evaluation times below the
`Number.MAX_VALUE` model constant — returns the identical stored
result and leaves the cache state, including the run count, entirely
unchanged. -/
theorem c8_theorem {P K V R : Type} [DecidableEq V]
    (cfg : Memosel.SelectorConfig P K V R) (keys : K) (param : P)
    (f : List (String × V) → K → R)
    (hsize : cfg.size = 1) (httl : cfg.ttl = none)
    (hres : cfg.resultSelector = some f)
    (hne : cfg.selectorEntries ≠ [])
    (heq : cfg.equalCompareFn param param = true)
    (now1 : Nat) (times : List Nat)
    (ht : ∀ t ∈ times, t < Memosel.NumberMaxValue)
    (m : List (String × V))
    (hm : m = (Memosel.applyFields none (Memosel.evalSeq cfg param keys)
      ([], false)).1) :
    (Memosel.invoke cfg keys now1 param ⟨[], 0, 0, []⟩).1
      = some (.trans (f m keys))
    ∧ (Memosel.invoke cfg keys now1 param ⟨[], 0, 0, []⟩).2.transformRuns = 1
    ∧ (Memosel.invokeSeq cfg keys param times
        (Memosel.invoke cfg keys now1 param ⟨[], 0, 0, []⟩).2).2
      = (Memosel.invoke cfg keys now1 param ⟨[], 0, 0, []⟩).2
    ∧ ∀ r ∈ (Memosel.invokeSeq cfg keys param times
        (Memosel.invoke cfg keys now1 param ⟨[], 0, 0, []⟩).2).1,
        r = some (.trans (f m keys)) := by
  subst hm
  have hchange : (Memosel.applyFields (none : Option (List (String × V)))
      (Memosel.evalSeq cfg param keys) ([], false)).2 = true := by
    rw [Memosel.applyFields_flag]
    rcases he : cfg.selectorEntries with _ | ⟨e0, rest⟩
    · exact absurd he hne
    · simp [Memosel.evalSeq, he, Memosel.fieldChanged]
  have hrefresh : Memosel.refresh cfg keys now1 param ⟨param, 0, none, none⟩
      = (⟨param, Memosel.NumberMaxValue,
          some (Memosel.applyFields none (Memosel.evalSeq cfg param keys)
            ([], false)).1,
          some (.trans (f (Memosel.applyFields none
            (Memosel.evalSeq cfg param keys) ([], false)).1 keys))⟩,
         none, true, true) := by
    unfold Memosel.refresh
    rw [show (((⟨param, 0, none, none⟩ :
        Memosel.ResultCacheEntry P V R).selected).isNone
      || decide ((⟨param, 0, none, none⟩ :
        Memosel.ResultCacheEntry P V R).expiry < now1)) = true from by simp]
    simp only [if_true]
    rw [hchange]
    simp only [if_true]
    rw [hres, httl]
    rfl
  have hins : Memosel.insertNew cfg.size param
      ([] : List (Memosel.ResultCacheEntry P V R))
      = [{ param := param, expiry := 0 }] := by
    unfold Memosel.insertNew
    dsimp only
    rw [hsize]
    rfl
  have hfirst : Memosel.invoke cfg keys now1 param ⟨[], 0, 0, []⟩
      = (some (.trans (f (Memosel.applyFields none
          (Memosel.evalSeq cfg param keys) ([], false)).1 keys)),
         ⟨[⟨param, Memosel.NumberMaxValue,
            some (Memosel.applyFields none (Memosel.evalSeq cfg param keys)
              ([], false)).1,
            some (.trans (f (Memosel.applyFields none
              (Memosel.evalSeq cfg param keys) ([], false)).1 keys))⟩],
          1, cfg.selectorEntries.length + cfg.selectorList.length, []⟩) := by
    unfold Memosel.invoke
    rw [show (Memosel.CacheState.resultCache
        (⟨[], 0, 0, []⟩ : Memosel.CacheState P V R)).findIdx?
        (fun x => cfg.equalCompareFn x.param param) = none from rfl]
    dsimp only
    rw [hins, hrefresh]
    simp
  rw [hfirst]
  have hfix : ∀ t ∈ times, Memosel.invoke cfg keys t param
      ⟨[⟨param, Memosel.NumberMaxValue,
          some (Memosel.applyFields none (Memosel.evalSeq cfg param keys)
            ([], false)).1,
          some (.trans (f (Memosel.applyFields none
            (Memosel.evalSeq cfg param keys) ([], false)).1 keys))⟩],
        1, cfg.selectorEntries.length + cfg.selectorList.length, []⟩
      = (some (.trans (f (Memosel.applyFields none
          (Memosel.evalSeq cfg param keys) ([], false)).1 keys)),
         ⟨[⟨param, Memosel.NumberMaxValue,
            some (Memosel.applyFields none (Memosel.evalSeq cfg param keys)
              ([], false)).1,
            some (.trans (f (Memosel.applyFields none
              (Memosel.evalSeq cfg param keys) ([], false)).1 keys))⟩],
          1, cfg.selectorEntries.length + cfg.selectorList.length, []⟩) := by
    intro t htmem
    exact Memosel.invoke_fixed cfg keys param t _ 1 _ [] heq
      (by simp) (by have := ht t htmem; simp; omega)
  have hconst := Memosel.invokeSeq_const cfg keys param
    ⟨[⟨param, Memosel.NumberMaxValue,
        some (Memosel.applyFields none (Memosel.evalSeq cfg param keys)
          ([], false)).1,
        some (.trans (f (Memosel.applyFields none
          (Memosel.evalSeq cfg param keys) ([], false)).1 keys))⟩],
      1, cfg.selectorEntries.length + cfg.selectorList.length, []⟩
    (some (.trans (f (Memosel.applyFields none
      (Memosel.evalSeq cfg param keys) ([], false)).1 keys)))
    times [] hfix
  have h2 : Memosel.invokeSeq cfg keys param times
      ⟨[⟨param, Memosel.NumberMaxValue,
          some (Memosel.applyFields none (Memosel.evalSeq cfg param keys)
            ([], false)).1,
          some (.trans (f (Memosel.applyFields none
            (Memosel.evalSeq cfg param keys) ([], false)).1 keys))⟩],
        1, cfg.selectorEntries.length + cfg.selectorList.length, []⟩
      = ([] ++ List.replicate times.length
          (some (.trans (f (Memosel.applyFields none
            (Memosel.evalSeq cfg param keys) ([], false)).1 keys))),
         ⟨[⟨param, Memosel.NumberMaxValue,
            some (Memosel.applyFields none (Memosel.evalSeq cfg param keys)
              ([], false)).1,
            some (.trans (f (Memosel.applyFields none
              (Memosel.evalSeq cfg param keys) ([], false)).1 keys))⟩],
          1, cfg.selectorEntries.length + cfg.selectorList.length, []⟩) :=
    hconst
  refine ⟨rfl, rfl, ?_, ?_⟩
  · rw [h2]
  · intro r hr
    rw [h2] at hr
    simp only [List.nil_append] at hr
    exact List.eq_of_mem_replicate hr

set_option maxRecDepth 8000 in
/-- C8 witness: the doubling capacity-1 selector called with input 1 at
t = 5 computes result 2 with one result-selector run; replaying input 1
at t = 6 and t = 7 returns the identical stored result each time and
leaves the state — run count included — unchanged. -/
theorem c8_witness :
    (Memosel.invoke Memosel.doubleCfg () 5 1 ⟨[], 0, 0, []⟩).1
      = some (.trans 2)
    ∧ (Memosel.invoke Memosel.doubleCfg () 5 1
        ⟨[], 0, 0, []⟩).2.transformRuns = 1
    ∧ (Memosel.invokeSeq Memosel.doubleCfg () 1 [6, 7]
        (Memosel.invoke Memosel.doubleCfg () 5 1 ⟨[], 0, 0, []⟩).2).2
      = (Memosel.invoke Memosel.doubleCfg () 5 1 ⟨[], 0, 0, []⟩).2
    ∧ ∀ r ∈ (Memosel.invokeSeq Memosel.doubleCfg () 1 [6, 7]
        (Memosel.invoke Memosel.doubleCfg () 5 1 ⟨[], 0, 0, []⟩).2).1,
        r = some (.trans 2) := by
  have h := c8_theorem Memosel.doubleCfg () 1
    (fun m _ => (Memosel.getField m "v").getD 0 * 2)
    rfl rfl rfl (by simp [Memosel.doubleCfg]) (by decide) 5 [6, 7]
    (by decide) [("v", 1)] (by decide)
  exact ⟨h.1, h.2.1, h.2.2.1, h.2.2.2⟩
